import Mathlib

/-!
Verification of the weem test-execution telemetry pipeline: the metrics
collector (`src/reporting/metrics/test-metrics.ts`), the failure analyzer
(`src/reporting/analysis/failure-analyzer.ts`), and the status-class
computation of the HTML report generator. Machine numbers are modelled as
`ℚ` (JS numbers at test-suite scale), `Date` values as `ℚ` timestamps, and
JS strings as Lean `String`s; `Array.prototype.sort` (stable in ES2019+)
is modelled by a stable insertion sort.
-/

namespace Weem

/-- Test status union from `test-metrics.ts` (`'passed' | 'failed' | 'skipped' | 'flaky'`). -/
inductive Status where
  | passed
  | failed
  | skipped
  | flaky
deriving DecidableEq

/-- `TestError` from `test-metrics.ts`. `location` is collapsed to its presence;
no code under verification reads its fields. -/
structure TestError where
  message : String
  stack : Option String
  type : String
  location : Option (String × Nat × Nat)
deriving DecidableEq

/-- Attachment type union from `test-metrics.ts`. -/
inductive AttachmentType where
  | screenshot
  | video
  | trace
  | log
deriving DecidableEq

/-- `Attachment` from `test-metrics.ts`. -/
structure Attachment where
  name : String
  path : String
  type : AttachmentType
  size : Option Nat
deriving DecidableEq

/-- `TestResult` from `test-metrics.ts`; `Date`s are `ℚ` timestamps. -/
structure TestResult where
  name : String
  fullName : String
  status : Status
  duration : ℚ
  startTime : ℚ
  endTime : Option ℚ
  error : Option TestError
  retries : Nat
  attachments : List Attachment
  tags : List String
deriving DecidableEq

/-- `FailureAnalysis` from `test-metrics.ts` (collector's failure-index entry). -/
structure FailureAnalysis where
  errorType : String
  errorMessage : String
  count : Nat
  tests : List String
  firstOccurrence : ℚ
  lastOccurrence : ℚ
deriving DecidableEq

/-- `TestMetrics` from `test-metrics.ts`. -/
structure TestMetrics where
  total : Nat
  passed : Nat
  failed : Nat
  skipped : Nat
  flaky : Nat
  startTime : ℚ
  endTime : Option ℚ
  duration : ℚ
  averageTestDuration : ℚ
  slowestTest : Option TestResult
  fastestTest : Option TestResult
  failureRate : ℚ
  topFailures : List FailureAnalysis
  browser : String
  environment : String
deriving DecidableEq

/-- The private state of a `TestMetricsCollector` instance: the `metrics`
aggregate, the `testResults` array, and the `failures` map (a JS `Map`
preserves insertion order, modelled as an association list). -/
structure CollectorState where
  metrics : TestMetrics
  testResults : List TestResult
  failures : List (String × FailureAnalysis)
deriving DecidableEq

/-! ### String primitives

JS `String.prototype.includes`, `toLowerCase`, and the three regexes of
`extractPattern`, modelled over `List Char`. -/

/-- `a.isPrefixOf b` for char lists (leading fragment check). -/
def leadsWith : List Char → List Char → Bool
  | [], _ => true
  | _ :: _, [] => false
  | a :: as, b :: bs => a == b && leadsWith as bs

/-- `haystack.includes(needle)` on char lists: some position starts with `needle`. -/
def listContains (needle : List Char) : List Char → Bool
  | [] => needle.isEmpty
  | c :: t => leadsWith needle (c :: t) || listContains needle t

/-- JS `h.includes(n)`. -/
def strContains (h n : String) : Bool :=
  listContains n.data h.data

/-- JS `s.toLowerCase()` (ASCII range, which is all the categorizer compares). -/
def lowerStr (s : String) : String :=
  String.mk (s.data.map Char.toLower)

/-- Longest leading digit run and the remainder (greedy `\d+`). -/
def digitSpan (l : List Char) : List Char × List Char :=
  (l.takeWhile Char.isDigit, l.dropWhile Char.isDigit)

/-- First match of `/Timeout (\d+)ms/`: scan left to right; at each position
require literal `"Timeout "`, then a maximal nonempty digit run, then `"ms"`.
(The greedy `\d+` can only succeed on the maximal run, since any shorter run
is followed by a digit, not `'m'`.) Returns the captured digit run. -/
def timeoutScan : List Char → Option (List Char)
  | [] => none
  | c :: t =>
    if leadsWith "Timeout ".data (c :: t) then
      let rest := (c :: t).drop 8
      let ds := rest.takeWhile Char.isDigit
      if !ds.isEmpty && leadsWith "ms".data (rest.dropWhile Char.isDigit) then
        some ds
      else
        timeoutScan t
    else
      timeoutScan t

/-- Chars allowed inside the locator literal: `[^'"]`. -/
def notQuote (c : Char) : Bool :=
  !(c == '\'') && !(c == '\"')

/-- Attempt of `/locator\(['"]([^'"]+)['"]\)/` anchored right after the literal
`"locator("`: one quote char, a maximal nonempty run of non-quote chars
(the greedy `[^'"]+` can only succeed on the maximal run), a quote char,
then `')'`. Returns the captured run. -/
def locatorAt (rest : List Char) : Option (List Char) :=
  match rest with
  | [] => none
  | q :: rest2 =>
    if notQuote q then
      none
    else
      let body := rest2.takeWhile notQuote
      match rest2.dropWhile notQuote with
      | q2 :: rp :: _ =>
        if !notQuote q2 && rp == ')' && !body.isEmpty then some body else none
      | _ => none

/-- First match of `/locator\(['"]([^'"]+)['"]\)/`: scan left to right,
attempting `locatorAt` after each occurrence of `"locator("`. -/
def locatorScan : List Char → Option (List Char)
  | [] => none
  | c :: t =>
    if leadsWith "locator(".data (c :: t) then
      match locatorAt ((c :: t).drop 8) with
      | some body => some body
      | none => locatorScan t
    else
      locatorScan t

/-- First match of `/expect\(([^)]+)\)/`: literal `"expect("`, a maximal
nonempty run of non-`')'` chars, then `')'`. Returns the captured run. -/
def expectScan : List Char → Option (List Char)
  | [] => none
  | c :: t =>
    if leadsWith "expect(".data (c :: t) then
      let rest := (c :: t).drop 7
      let body := rest.takeWhile (fun ch => !(ch == ')'))
      if !body.isEmpty && (rest.dropWhile (fun ch => !(ch == ')'))).head? == some ')' then
        some body
      else
        expectScan t
    else
      expectScan t

/-! ### Failure analyzer (`failure-analyzer.ts`) -/

/-- `FailureCategory` union from `failure-analyzer.ts`. -/
inductive FailureCategory where
  | timeout
  | assertion
  | elementNotFound
  | network
  | navigation
  | authentication
  | data
  | unknown
deriving DecidableEq

/-- The string value of each `FailureCategory` member (TS string-literal union). -/
def catToString : FailureCategory → String
  | .timeout => "timeout"
  | .assertion => "assertion"
  | .elementNotFound => "element-not-found"
  | .network => "network"
  | .navigation => "navigation"
  | .authentication => "authentication"
  | .data => "data"
  | .unknown => "unknown"

/-- Severity union of `FailurePattern.severity`. -/
inductive Severity where
  | high
  | medium
  | low
deriving DecidableEq

/-- `FailurePattern` from `failure-analyzer.ts`. -/
structure FailurePattern where
  pattern : String
  description : String
  occurrences : Nat
  affectedTests : List String
  severity : Severity
  category : FailureCategory
  suggestedFix : Option String
deriving DecidableEq

/-- `FailureAnalyzer.categorizeFailure`: ordered `includes` checks on the
lower-cased `message`, with `type` additionally consulted for the timeout and
assertion checks only; first match wins, `unknown` is the fallback. -/
def categorizeFailure (error : TestError) : FailureCategory :=
  let message := lowerStr error.message
  let type := lowerStr error.type
  if strContains message "timeout" || strContains type "timeout" then
    .timeout
  else if strContains message "expect" || strContains message "assert" || strContains type "assertion" then
    .assertion
  else if strContains message "locator" || strContains message "element" || strContains message "selector" then
    .elementNotFound
  else if strContains message "network" || strContains message "net::" || strContains message "fetch" then
    .network
  else if strContains message "navigation" || strContains message "goto" then
    .navigation
  else if strContains message "authentication" || strContains message "login" || strContains message "unauthorized" then
    .authentication
  else if strContains message "data" || strContains message "validation" then
    .data
  else
    .unknown

/-- `FailureAnalyzer.extractPattern`: timeout / locator / assertion regex
extraction, else first line of the message truncated to 100 chars. -/
def extractPattern (error : TestError) : String :=
  let message := error.message
  if strContains message "Timeout" then
    match timeoutScan message.data with
    | some n => "Timeout " ++ String.mk n ++ "ms"
    | none => "Timeout"
  else if strContains message "locator" then
    match locatorScan message.data with
    | some lit => "Locator: " ++ String.mk lit
    | none => "Locator not found"
  else if strContains message "expect" then
    match expectScan message.data with
    | some expr => "Assertion failed: " ++ String.mk expr
    | none => "Assertion failed"
  else
    String.mk ((message.data.takeWhile (fun c => !(c == '\n'))).take 100)

/-- `FailureAnalyzer.getPatternDescription` lookup table. -/
def getPatternDescription : FailureCategory → String
  | .timeout => "Test exceeded the maximum execution time"
  | .assertion => "Expected condition was not met"
  | .elementNotFound => "Could not find the specified element on the page"
  | .network => "Network request failed or timed out"
  | .navigation => "Failed to navigate to the specified URL"
  | .authentication => "Authentication or authorization failed"
  | .data => "Data validation or processing failed"
  | .unknown => "Unclassified failure"

/-- `FailureAnalyzer.calculateSeverity`: fixed category-to-severity mapping. -/
def calculateSeverity : FailureCategory → Severity
  | .authentication => .high
  | .network => .high
  | .navigation => .high
  | .elementNotFound => .medium
  | .timeout => .medium
  | _ => .low

/-- `FailureAnalyzer.getSuggestedFix` lookup table (total, so always `some`). -/
def getSuggestedFix : FailureCategory → String
  | .timeout => "Increase timeout value or optimize test performance. Check for slow network or page loads."
  | .assertion => "Review test assertions and ensure expected values are correct."
  | .elementNotFound => "Verify element selectors are correct and elements are visible. Consider adding explicit waits."
  | .network => "Check network connectivity and API endpoints. Implement retry logic for flaky requests."
  | .navigation => "Verify URLs are correct and accessible. Check for redirect issues."
  | .authentication => "Verify authentication credentials and flow. Check for expired tokens or sessions."
  | .data => "Validate test data format and values. Check data generators and fixtures."
  | .unknown => "Review error stack trace and test logs for more details."

/-- The grouping key built in `analyzeFailures`: `` `${category}:${pattern}` ``. -/
def failKey (error : TestError) : String :=
  catToString (categorizeFailure error) ++ ":" ++ extractPattern error

/-- The fresh `FailurePattern` created for a key's first occurrence. -/
def mkPattern (error : TestError) (fullName : String) : FailurePattern :=
  { pattern := extractPattern error
    description := getPatternDescription (categorizeFailure error)
    occurrences := 1
    affectedTests := [fullName]
    severity := calculateSeverity (categorizeFailure error)
    category := categorizeFailure error
    suggestedFix := some (getSuggestedFix (categorizeFailure error)) }

/-- The in-place update of an existing pattern on a repeat occurrence. -/
def bumpPattern (fp : FailurePattern) (fullName : String) : FailurePattern :=
  { fp with occurrences := fp.occurrences + 1, affectedTests := fp.affectedTests ++ [fullName] }

/-- One iteration of the `forEach` body of `analyzeFailures`: skip tests
without an `error`; otherwise update the keyed entry (a JS `Map` keeps its
insertion position on update) or append a fresh one. -/
def stepFailure (acc : List (String × FailurePattern)) (test : TestResult) :
    List (String × FailurePattern) :=
  match test.error with
  | none => acc
  | some e =>
    let key := failKey e
    if acc.any (fun kv => kv.1 == key) then
      acc.map (fun kv => if kv.1 = key then (kv.1, bumpPattern kv.2 test.fullName) else kv)
    else
      acc ++ [(key, mkPattern e test.fullName)]

/-- The populated `patterns` map of `analyzeFailures`, in insertion order. -/
def groupFailures (failedTests : List TestResult) : List (String × FailurePattern) :=
  failedTests.foldl stepFailure []

/-- Stable insertion step for a descending sort keyed by `f`: the inserted
element passes only strictly greater elements, so equal keys keep their
original relative order (ES2019+ `Array.prototype.sort` is stable). -/
def insertDescBy (f : α → Nat) (x : α) : List α → List α
  | [] => [x]
  | y :: ys => if f y ≤ f x then x :: y :: ys else y :: insertDescBy f x ys

/-- Stable descending sort by `f`, modelling `.sort((a, b) => f(b) - f(a))`. -/
def sortDescBy (f : α → Nat) : List α → List α
  | [] => []
  | x :: xs => insertDescBy f x (sortDescBy f xs)

/-- `FailureAnalyzer.analyzeFailures`: group by `` `${category}:${pattern}` ``,
then sort descending by `occurrences`. -/
def analyzeFailures (failedTests : List TestResult) : List FailurePattern :=
  sortDescBy (fun fp => fp.occurrences) ((groupFailures failedTests).map Prod.snd)

/-! ### Metrics collector (`test-metrics.ts`) -/

/-- The `TestMetricsCollector` constructor: zeroed counts and rates, clock
reading `now` as `startTime`, the given `browser` and `environment` labels. -/
def initState (browser environment : String) (now : ℚ) : CollectorState :=
  { metrics :=
      { total := 0
        passed := 0
        failed := 0
        skipped := 0
        flaky := 0
        startTime := now
        endTime := none
        duration := 0
        averageTestDuration := 0
        slowestTest := none
        fastestTest := none
        failureRate := 0
        topFailures := []
        browser := browser
        environment := environment }
    testResults := []
    failures := [] }

/-- `TestMetricsCollector.start`: re-reads the clock into `startTime`. -/
def startCollector (now : ℚ) (s : CollectorState) : CollectorState :=
  { s with metrics := { s.metrics with startTime := now } }

/-- `TestMetricsCollector.recordFailure`: skip results without an `error`;
otherwise update or append the `type:message` index entry (`new Date()`
fallbacks for a missing `endTime` read the clock `now`). -/
def recordFailure (result : TestResult) (now : ℚ) (s : CollectorState) : CollectorState :=
  match result.error with
  | none => s
  | some e =>
    let key := e.type ++ ":" ++ e.message
    if s.failures.any (fun kv => kv.1 == key) then
      { s with failures := s.failures.map (fun kv =>
          if kv.1 = key then
            (kv.1, { kv.2 with
                      count := kv.2.count + 1
                      tests := kv.2.tests ++ [result.fullName]
                      lastOccurrence := result.endTime.getD now })
          else kv) }
    else
      { s with failures := s.failures ++
          [(key, { errorType := e.type
                   errorMessage := e.message
                   count := 1
                   tests := [result.fullName]
                   firstOccurrence := result.endTime.getD now
                   lastOccurrence := result.endTime.getD now })] }

/-- `TestMetricsCollector.updatePerformanceMetrics`: strict-comparison extrema
(fastest only over passed results) and the full-recompute running mean over
the already-pushed `testResults`. -/
def updatePerformanceMetrics (result : TestResult) (s : CollectorState) : CollectorState :=
  let slowest :=
    match s.metrics.slowestTest with
    | none => some result
    | some st => if result.duration > st.duration then some result else some st
  let fastest :=
    if result.status = .passed then
      match s.metrics.fastestTest with
      | none => some result
      | some ft => if result.duration < ft.duration then some result else some ft
    else
      s.metrics.fastestTest
  { s with metrics := { s.metrics with
      slowestTest := slowest
      fastestTest := fastest
      averageTestDuration :=
        ((s.testResults.map (fun t => t.duration)).foldl (· + ·) 0) /
          (s.testResults.length : ℚ) } }

/-- The `switch (result.status)` body of `recordTest`. -/
def applyStatus (result : TestResult) (now : ℚ) (s : CollectorState) : CollectorState :=
  match result.status with
  | .passed => { s with metrics := { s.metrics with passed := s.metrics.passed + 1 } }
  | .failed => recordFailure result now { s with metrics := { s.metrics with failed := s.metrics.failed + 1 } }
  | .skipped => { s with metrics := { s.metrics with skipped := s.metrics.skipped + 1 } }
  | .flaky => { s with metrics := { s.metrics with flaky := s.metrics.flaky + 1 } }

/-- `TestMetricsCollector.recordTest`: push the result, bump `total`, bump the
status counter (recording the failure index for failed results), then update
the performance metrics. -/
def recordTest (result : TestResult) (now : ℚ) (s : CollectorState) : CollectorState :=
  updatePerformanceMetrics result
    (applyStatus result now
      { s with
          testResults := s.testResults ++ [result]
          metrics := { s.metrics with total := s.metrics.total + 1 } })

/-- `TestMetricsCollector.finish`: set `endTime` and `duration`, set
`failureRate` only when `total > 0`, and take the top 10 failure-index
entries by descending `count`. -/
def finish (now : ℚ) (s : CollectorState) : CollectorState :=
  let m := { s.metrics with endTime := some now, duration := now - s.metrics.startTime }
  let m :=
    if 0 < m.total then
      { m with failureRate := (m.failed : ℚ) / (m.total : ℚ) * 100 }
    else
      m
  { s with metrics :=
      { m with topFailures :=
          (sortDescBy (fun fa => fa.count) (s.failures.map Prod.snd)).take 10 } }

/-- `TestMetricsCollector.getFailedTests`. -/
def getFailedTests (s : CollectorState) : List TestResult :=
  s.testResults.filter (fun t => t.status == .failed)

/-- `TestMetricsCollector.getPassRate`. -/
def getPassRate (s : CollectorState) : ℚ :=
  if s.metrics.total = 0 then 0
  else (s.metrics.passed : ℚ) / (s.metrics.total : ℚ) * 100

/-- `TestMetricsCollector.reset`: re-zero every metric, re-read the clock,
keep the `browser` and `environment` labels, clear results and failure index. -/
def reset (now : ℚ) (s : CollectorState) : CollectorState :=
  { metrics :=
      { total := 0
        passed := 0
        failed := 0
        skipped := 0
        flaky := 0
        startTime := now
        endTime := none
        duration := 0
        averageTestDuration := 0
        slowestTest := none
        fastestTest := none
        failureRate := 0
        topFailures := []
        browser := s.metrics.browser
        environment := s.metrics.environment }
    testResults := []
    failures := [] }

/-- A sequence of `recordTest` calls; each result is paired with the clock
value `new Date()` would read during that call. -/
def runList (s : CollectorState) (ps : List (TestResult × ℚ)) : CollectorState :=
  ps.foldl (fun s p => recordTest p.1 p.2 s) s

/-! ### Report generator status class (`HTMLReportGenerator.buildHeader`) -/

/-- `Number.prototype.toFixed(1)` followed by `parseFloat`, on a nonnegative
rational: rounding to the nearest tenth, half away from zero. (The source
computes with binary floats; at the counterexample below the float value is
far from the rounding boundary, so the model agrees with it.) -/
def toFixed1 (q : ℚ) : ℚ :=
  ((⌊q * 10 + 1 / 2⌋ : ℤ) : ℚ) / 10

/-- The pass-rate status class computed in `HTMLReportGenerator.buildHeader`:
`parseFloat(((passed / total) * 100).toFixed(1))` compared against 80 and 50.
When `total = 0` the source's `NaN` fails both comparisons and yields
`"error"`, as does this model's zero division. -/
def buildHeaderStatusClass (metrics : TestMetrics) : String :=
  let passRate := toFixed1 ((metrics.passed : ℚ) / (metrics.total : ℚ) * 100)
  if 80 ≤ passRate then "success"
  else if 50 ≤ passRate then "warning"
  else "error"

/-! ### Spec-side definition for claim C1 -/

/-- First-match-wins evaluation of an ordered check table: the category of the
first check that fires, `unknown` when none does. -/
def firstMatch : List (Bool × FailureCategory) → FailureCategory
  | [] => .unknown
  | c :: cs => if c.1 then c.2 else firstMatch cs

/-- Modelled from the amended claim wording: an ordered first-match-wins table
of checks in the priority order timeout, assertion, element-not-found,
network, navigation, authentication, data, with `unknown` as fallback, where
the lower-cased `type` is consulted only by the timeout and assertion checks
and every other check reads the lower-cased `message` alone. -/
def categorizeFailureSpec (error : TestError) : FailureCategory :=
  let m := lowerStr error.message
  let t := lowerStr error.type
  firstMatch
    [(strContains m "timeout" || strContains t "timeout", .timeout),
     (strContains m "expect" || strContains m "assert" || strContains t "assertion", .assertion),
     (strContains m "locator" || strContains m "element" || strContains m "selector", .elementNotFound),
     (strContains m "network" || strContains m "net::" || strContains m "fetch", .network),
     (strContains m "navigation" || strContains m "goto", .navigation),
     (strContains m "authentication" || strContains m "login" || strContains m "unauthorized", .authentication),
     (strContains m "data" || strContains m "validation", .data)]

/-- A test result matches a `(category, pattern)` pair when it carries an
error that categorizes and extracts to exactly that pair. -/
def matchesPair (c : FailureCategory) (p : String) (t : TestResult) : Bool :=
  t.error.any (fun e => categorizeFailure e == c && extractPattern e == p)

/-- A test result matches a grouping key when it carries an error whose
`failKey` is that key. -/
def matchesKey (k : String) (t : TestResult) : Bool :=
  t.error.any (fun e => failKey e == k)

/-- Invariant of the `patterns` map of `analyzeFailures` after processing the
tests in `seen`: every entry counts and names exactly the seen tests matching
its key, its key is its record's `category:pattern`, keys are distinct, and
every seen error's key has an entry. -/
def GroupInv (seen : List TestResult) (acc : List (String × FailurePattern)) : Prop :=
  (∀ kv ∈ acc,
      kv.2.occurrences = (seen.filter (matchesKey kv.1)).length ∧
      kv.2.affectedTests = (seen.filter (matchesKey kv.1)).map (fun t => t.fullName) ∧
      kv.1 = catToString kv.2.category ++ ":" ++ kv.2.pattern) ∧
  (acc.map Prod.fst).Nodup ∧
  (∀ t ∈ seen, ∀ e, t.error = some e → acc.any (fun kv => kv.1 == failKey e) = true)

/-! ### Concrete fixtures used by scenario claims -/

/-- A passed result of the given name and duration (Scenario A shape). -/
def passResult (nm : String) (dur : ℚ) : TestResult :=
  { name := nm
    fullName := nm
    status := .passed
    duration := dur
    startTime := 0
    endTime := none
    error := none
    retries := 0
    attachments := []
    tags := []  }

/-- Scenario A's failed result: `error.message = "Timeout 5000ms exceeded"`,
`error.type = "TimeoutError"`, arbitrary duration. -/
def timeoutResult (d : ℚ) : TestResult :=
  { name := "t4"
    fullName := "t4"
    status := .failed
    duration := d
    startTime := 0
    endTime := none
    error := some { message := "Timeout 5000ms exceeded"
                    stack := none
                    type := "TimeoutError"
                    location := none }
    retries := 0
    attachments := []
    tags := []  }

/-- A failed result carrying no error object (Scenario D shape). -/
def failedNoError : TestResult :=
  { name := "t"
    fullName := "t"
    status := .failed
    duration := 0
    startTime := 0
    endTime := none
    error := none
    retries := 0
    attachments := []
    tags := []  }

/-- Metrics whose exact pass rate is 79.96% — below the 80% threshold, but
rounding to one decimal crosses it. -/
def roundedUpMetrics : TestMetrics :=
  { (initState "chromium" "dev" 0).metrics with total := 2500, passed := 1999 }

/-- The Scenario A run: 3 passed results (100ms, 200ms, 300ms) and the timeout
failure of duration `d` recorded on a started collector, then `finish`. -/
def scenarioARun (d t0 t1 t2 : ℚ) : CollectorState :=
  finish t2 (runList (startCollector t1 (initState "chromium" "dev" t0))
    [(passResult "t1" 100, 0), (passResult "t2" 200, 0), (passResult "t3" 300, 0),
     (timeoutResult d, 0)])

/-! ## Lemmas: collector single-step field accounting -/

theorem recordFailure_metrics (r : TestResult) (now : ℚ) (s : CollectorState) :
    (recordFailure r now s).metrics = s.metrics := by
  unfold recordFailure
  cases r.error with
  | none => rfl
  | some e =>
    dsimp only
    split <;> rfl

theorem recordFailure_testResults (r : TestResult) (now : ℚ) (s : CollectorState) :
    (recordFailure r now s).testResults = s.testResults := by
  unfold recordFailure
  cases r.error with
  | none => rfl
  | some e =>
    dsimp only
    split <;> rfl

theorem recordFailure_of_error_none (r : TestResult) (now : ℚ) (s : CollectorState)
    (h : r.error = none) : recordFailure r now s = s := by
  unfold recordFailure
  rw [h]

theorem applyStatus_metrics_total (r : TestResult) (now : ℚ) (s : CollectorState) :
    (applyStatus r now s).metrics.total = s.metrics.total := by
  unfold applyStatus
  cases r.status <;> simp [recordFailure_metrics]

theorem applyStatus_testResults (r : TestResult) (now : ℚ) (s : CollectorState) :
    (applyStatus r now s).testResults = s.testResults := by
  unfold applyStatus
  cases r.status <;> simp [recordFailure_testResults]

theorem recordTest_total (r : TestResult) (now : ℚ) (s : CollectorState) :
    (recordTest r now s).metrics.total = s.metrics.total + 1 := by
  unfold recordTest updatePerformanceMetrics
  simp [applyStatus_metrics_total]

theorem recordTest_passed (r : TestResult) (now : ℚ) (s : CollectorState) :
    (recordTest r now s).metrics.passed
      = s.metrics.passed + (if r.status = .passed then 1 else 0) := by
  unfold recordTest updatePerformanceMetrics applyStatus
  cases h : r.status <;> simp [h, recordFailure_metrics]

theorem recordTest_failed (r : TestResult) (now : ℚ) (s : CollectorState) :
    (recordTest r now s).metrics.failed
      = s.metrics.failed + (if r.status = .failed then 1 else 0) := by
  unfold recordTest updatePerformanceMetrics applyStatus
  cases h : r.status <;> simp [h, recordFailure_metrics]

theorem recordTest_skipped (r : TestResult) (now : ℚ) (s : CollectorState) :
    (recordTest r now s).metrics.skipped
      = s.metrics.skipped + (if r.status = .skipped then 1 else 0) := by
  unfold recordTest updatePerformanceMetrics applyStatus
  cases h : r.status <;> simp [h, recordFailure_metrics]

theorem recordTest_flaky (r : TestResult) (now : ℚ) (s : CollectorState) :
    (recordTest r now s).metrics.flaky
      = s.metrics.flaky + (if r.status = .flaky then 1 else 0) := by
  unfold recordTest updatePerformanceMetrics applyStatus
  cases h : r.status <;> simp [h, recordFailure_metrics]

theorem recordTest_failureRate (r : TestResult) (now : ℚ) (s : CollectorState) :
    (recordTest r now s).metrics.failureRate = s.metrics.failureRate := by
  unfold recordTest updatePerformanceMetrics applyStatus
  cases h : r.status <;> simp [h, recordFailure_metrics]

theorem recordTest_testResults (r : TestResult) (now : ℚ) (s : CollectorState) :
    (recordTest r now s).testResults = s.testResults ++ [r] := by
  unfold recordTest updatePerformanceMetrics
  simp [applyStatus_testResults]

/-! ## Lemmas: runs of `recordTest` -/

theorem runList_nil (s : CollectorState) : runList s [] = s := rfl

theorem runList_cons (s : CollectorState) (p : TestResult × ℚ) (ps : List (TestResult × ℚ)) :
    runList s (p :: ps) = runList (recordTest p.1 p.2 s) ps := rfl

theorem runList_total (s : CollectorState) (ps : List (TestResult × ℚ)) :
    (runList s ps).metrics.total = s.metrics.total + ps.length := by
  induction ps generalizing s with
  | nil => simp [runList_nil]
  | cons p ps ih =>
    rw [runList_cons, ih, recordTest_total]
    simp [Nat.add_assoc, Nat.add_comm 1 ps.length]

theorem runList_passed (s : CollectorState) (ps : List (TestResult × ℚ)) :
    (runList s ps).metrics.passed
      = s.metrics.passed + ps.countP (fun p => p.1.status == .passed) := by
  induction ps generalizing s with
  | nil => simp [runList_nil]
  | cons p ps ih =>
    rw [runList_cons, ih, recordTest_passed, List.countP_cons]
    by_cases h : p.1.status = .passed
    all_goals simp [h]
    all_goals omega

theorem runList_failureRate (s : CollectorState) (ps : List (TestResult × ℚ)) :
    (runList s ps).metrics.failureRate = s.metrics.failureRate := by
  induction ps generalizing s with
  | nil => rfl
  | cons p ps ih => rw [runList_cons, ih, recordTest_failureRate]

/-! ## Claim C2: `total = passed + failed + skipped + flaky` after every call -/

theorem recordTest_counts_sum (r : TestResult) (now : ℚ) (s : CollectorState)
    (h : s.metrics.total
      = s.metrics.passed + s.metrics.failed + s.metrics.skipped + s.metrics.flaky) :
    (recordTest r now s).metrics.total
      = (recordTest r now s).metrics.passed + (recordTest r now s).metrics.failed
        + (recordTest r now s).metrics.skipped + (recordTest r now s).metrics.flaky := by
  rw [recordTest_total, recordTest_passed, recordTest_failed, recordTest_skipped,
    recordTest_flaky]
  cases hs : r.status <;> simp [hs] <;> omega

theorem runList_counts_sum (ps : List (TestResult × ℚ)) (s : CollectorState)
    (h : s.metrics.total
      = s.metrics.passed + s.metrics.failed + s.metrics.skipped + s.metrics.flaky) :
    (runList s ps).metrics.total
      = (runList s ps).metrics.passed + (runList s ps).metrics.failed
        + (runList s ps).metrics.skipped + (runList s ps).metrics.flaky := by
  induction ps generalizing s with
  | nil => exact h
  | cons p ps ih =>
    rw [runList_cons]
    exact ih _ (recordTest_counts_sum p.1 p.2 s h)

/-- C2: after any sequence of `recordTest` calls on a started collector
(every `TestResult.status` being one of the four enum members by the type),
the counts satisfy `total = passed + failed + skipped + flaky`; since the
record sequence is arbitrary, the invariant holds after every call. -/
theorem recordTest_total_eq_sum_counts (browser env : String) (t0 t1 : ℚ)
    (ps : List (TestResult × ℚ)) :
    (runList (startCollector t1 (initState browser env t0)) ps).metrics.total
      = (runList (startCollector t1 (initState browser env t0)) ps).metrics.passed
        + (runList (startCollector t1 (initState browser env t0)) ps).metrics.failed
        + (runList (startCollector t1 (initState browser env t0)) ps).metrics.skipped
        + (runList (startCollector t1 (initState browser env t0)) ps).metrics.flaky :=
  runList_counts_sum ps _ rfl

/-! ## Claim C7: `getPassRate` -/

/-- C7: on a started collector after any record sequence, `getPassRate`
returns 0 when no test was recorded (`total = 0`) and exactly
`passed / total * 100` otherwise, with `passed` the number of recorded
results whose status is `passed` and `total` the number of records. -/
theorem getPassRate_spec (browser env : String) (t0 t1 : ℚ)
    (ps : List (TestResult × ℚ)) :
    getPassRate (runList (startCollector t1 (initState browser env t0)) ps)
      = if ps = [] then 0
        else ((ps.countP (fun p => p.1.status == .passed) : ℚ) / (ps.length : ℚ)) * 100 := by
  unfold getPassRate
  rw [runList_total, runList_passed]
  by_cases hp : ps = []
  · simp [hp, startCollector, initState]
  · have hlen : ps.length ≠ 0 := fun h => hp (List.length_eq_zero.mp h)
    simp [startCollector, initState, hlen, hp]

/-! ## Claim C10: `reset` -/

/-- C10: `reset` returns the collector to the constructor's initial state —
all counters, rates and timing aggregates zeroed, results and the failure
index emptied, `endTime`/`slowestTest`/`fastestTest` unset — re-reading the
clock for `startTime` and preserving the `browser` and `environment` labels
from construction. -/
theorem reset_eq_initState (s : CollectorState) (now : ℚ) :
    reset now s = initState s.metrics.browser s.metrics.environment now
      ∧ (reset now s).metrics.browser = s.metrics.browser
      ∧ (reset now s).metrics.environment = s.metrics.environment :=
  ⟨rfl, rfl, rfl⟩

/-! ## Claim C1: `categorizeFailure` -/

/-- C1 counterexample: an error whose `type` contains the keyword `network`
but whose `message` contains no keyword is categorized `unknown`, not
`network` — `categorizeFailure` consults `error.type` only for the timeout
and assertion checks. -/
theorem categorizeFailure_type_only_counterexample :
    categorizeFailure { message := "boom", stack := none, type := "NetworkError", location := none }
        = FailureCategory.unknown
      ∧ categorizeFailure { message := "boom", stack := none, type := "NetworkError", location := none }
        ≠ FailureCategory.network := by
  constructor
  · decide
  · decide

/-- C1 amended: `categorizeFailure` is the ordered first-match-wins table in
the priority order timeout, assertion, element-not-found, network,
navigation, authentication, data, `unknown` fallback, over the lower-cased
`message` — with the lower-cased `type` consulted only by the timeout and
assertion checks (so a `type` containing e.g. `network` alone falls through). -/
theorem categorizeFailure_eq_spec (e : TestError) :
    categorizeFailure e = categorizeFailureSpec e := by
  rfl

/-! ## Lemmas: the stable descending sort -/

theorem insertDescBy_perm (f : α → Nat) (x : α) (l : List α) :
    (insertDescBy f x l).Perm (x :: l) := by
  induction l with
  | nil => exact List.Perm.refl _
  | cons y ys ih =>
    by_cases hc : f y ≤ f x
    · simp [insertDescBy, hc]
    · simp only [insertDescBy, hc, if_false]
      exact (ih.cons y).trans (List.Perm.swap x y ys)

theorem sortDescBy_perm (f : α → Nat) (l : List α) : (sortDescBy f l).Perm l := by
  induction l with
  | nil => exact List.Perm.refl _
  | cons x xs ih => exact (insertDescBy_perm f x _).trans (ih.cons x)

theorem insertDescBy_pairwise (f : α → Nat) (x : α) (l : List α)
    (h : l.Pairwise (fun a b => f b ≤ f a)) :
    (insertDescBy f x l).Pairwise (fun a b => f b ≤ f a) := by
  induction l with
  | nil => simp [insertDescBy]
  | cons y ys ih =>
    rw [List.pairwise_cons] at h
    obtain ⟨hy, hys⟩ := h
    by_cases hc : f y ≤ f x
    · simp only [insertDescBy, hc, if_true]
      refine List.pairwise_cons.mpr ⟨?_, List.pairwise_cons.mpr ⟨hy, hys⟩⟩
      intro b hb
      rcases List.mem_cons.mp hb with rfl | hb'
      · exact hc
      · exact le_trans (hy b hb') hc
    · simp only [insertDescBy, hc, if_false]
      refine List.pairwise_cons.mpr ⟨?_, ih hys⟩
      intro b hb
      have hb' : b ∈ x :: ys := (insertDescBy_perm f x ys).mem_iff.mp hb
      rcases List.mem_cons.mp hb' with rfl | hb''
      · exact le_of_lt (Nat.lt_of_not_le hc)
      · exact hy b hb''

theorem sortDescBy_pairwise (f : α → Nat) (l : List α) :
    (sortDescBy f l).Pairwise (fun a b => f b ≤ f a) := by
  induction l with
  | nil => simp [sortDescBy]
  | cons x xs ih => exact insertDescBy_pairwise f x _ ih

theorem insertDescBy_filter (f : α → Nat) (x : α) (l : List α) (n : Nat) :
    (insertDescBy f x l).filter (fun a => f a == n)
      = if f x = n then x :: l.filter (fun a => f a == n)
        else l.filter (fun a => f a == n) := by
  induction l with
  | nil => by_cases h : f x = n <;> simp [insertDescBy, h]
  | cons y ys ih =>
    by_cases hc : f y ≤ f x
    · rw [show insertDescBy f x (y :: ys) = x :: y :: ys from by simp [insertDescBy, hc]]
      by_cases h : f x = n <;> simp [List.filter_cons, h]
    · rw [show insertDescBy f x (y :: ys) = y :: insertDescBy f x ys from by
        simp [insertDescBy, hc]]
      have hxy : f x < f y := Nat.lt_of_not_le hc
      by_cases h : f x = n
      · have hy : ¬(f y = n) := by omega
        simp [List.filter_cons, h, hy, ih]
      · simp [List.filter_cons, h, ih]

theorem sortDescBy_filter (f : α → Nat) (l : List α) (n : Nat) :
    (sortDescBy f l).filter (fun a => f a == n) = l.filter (fun a => f a == n) := by
  induction l with
  | nil => rfl
  | cons x xs ih =>
    show (insertDescBy f x (sortDescBy f xs)).filter _ = _
    rw [insertDescBy_filter, ih]
    by_cases h : f x = n <;> simp [List.filter_cons, h]

/-! ## Lemmas: `finish` field accounting -/

theorem finish_total (now : ℚ) (s : CollectorState) :
    (finish now s).metrics.total = s.metrics.total := by
  by_cases h : 0 < s.metrics.total <;> simp [finish, h]

theorem finish_failed (now : ℚ) (s : CollectorState) :
    (finish now s).metrics.failed = s.metrics.failed := by
  by_cases h : 0 < s.metrics.total <;> simp [finish, h]

theorem finish_failureRate (now : ℚ) (s : CollectorState) :
    (finish now s).metrics.failureRate
      = if 0 < s.metrics.total
        then (s.metrics.failed : ℚ) / (s.metrics.total : ℚ) * 100
        else s.metrics.failureRate := by
  by_cases h : 0 < s.metrics.total <;> simp [finish, h]

theorem finish_topFailures (now : ℚ) (s : CollectorState) :
    (finish now s).metrics.topFailures
      = (sortDescBy (fun fa => fa.count) (s.failures.map Prod.snd)).take 10 := by
  by_cases h : 0 < s.metrics.total <;> simp [finish, h]

/-! ## Claim C5: `finish` -/

/-- C5: after any record sequence on a started collector, `finish` sets
`failureRate = failed / total * 100` when `total > 0`; when `total = 0` it
leaves `failureRate` at 0 without any division error and `topFailures` is
empty. `topFailures` equals the failure-index entries stably sorted
descending by `count` and truncated to the first 10 — so it is sorted
descending, holds at most 10 entries, is a prefix of the full sorted index,
and entries of equal `count` keep first-seen index order. -/
theorem finish_spec (browser env : String) (t0 t1 t2 : ℚ)
    (ps : List (TestResult × ℚ)) :
    let pre := runList (startCollector t1 (initState browser env t0)) ps
    let s := finish t2 pre
    (0 < s.metrics.total →
        s.metrics.failureRate = (s.metrics.failed : ℚ) / (s.metrics.total : ℚ) * 100)
      ∧ (s.metrics.total = 0 → s.metrics.failureRate = 0 ∧ s.metrics.topFailures = [])
      ∧ s.metrics.topFailures.Pairwise (fun a b => b.count ≤ a.count)
      ∧ s.metrics.topFailures.length ≤ 10
      ∧ s.metrics.topFailures <+: sortDescBy (fun fa => fa.count) (pre.failures.map Prod.snd)
      ∧ (∀ n, s.metrics.topFailures.filter (fun fa => fa.count == n)
          <+: (pre.failures.map Prod.snd).filter (fun fa => fa.count == n))
      ∧ s.metrics.topFailures
          = (sortDescBy (fun fa => fa.count) (pre.failures.map Prod.snd)).take 10 := by
  intro pre s
  refine ⟨?_, ?_, ?_, ?_, ?_, ?_, ?_⟩
  · intro h
    rw [show s = finish t2 pre from rfl, finish_total] at h
    rw [show s = finish t2 pre from rfl, finish_failureRate, finish_total, finish_failed,
      if_pos h]
  · intro h
    rw [show s = finish t2 pre from rfl, finish_total] at h
    have hlen : ps.length = 0 := by
      have := runList_total (startCollector t1 (initState browser env t0)) ps
      rw [show pre = runList (startCollector t1 (initState browser env t0)) ps from rfl] at h
      omega
    have hps : ps = [] := List.length_eq_zero.mp hlen
    have hpre : pre = startCollector t1 (initState browser env t0) := by
      rw [show pre = runList (startCollector t1 (initState browser env t0)) ps from rfl, hps,
        runList_nil]
    constructor
    · rw [show s = finish t2 pre from rfl, finish_failureRate, hpre]
      simp [startCollector, initState]
    · rw [show s = finish t2 pre from rfl, finish_topFailures, hpre]
      simp [startCollector, initState, sortDescBy]
  · rw [show s = finish t2 pre from rfl, finish_topFailures]
    exact ((sortDescBy_pairwise _ _).sublist (List.take_sublist _ _))
  · rw [show s = finish t2 pre from rfl, finish_topFailures]
    exact List.length_take_le _ _
  · rw [show s = finish t2 pre from rfl, finish_topFailures]
    exact List.take_prefix _ _
  · intro n
    rw [show s = finish t2 pre from rfl, finish_topFailures]
    have h1 := (List.take_prefix 10
      (sortDescBy (fun fa => fa.count) (pre.failures.map Prod.snd))).filter
        (fun fa => fa.count == n)
    rw [sortDescBy_filter] at h1
    exact h1
  · rw [show s = finish t2 pre from rfl]
    exact finish_topFailures t2 pre

/-- C5 witness: the empty run — `failureRate` is 0 and `topFailures` is empty
with no division error. -/
theorem finish_spec_witness :
    (finish 0 (runList (startCollector 0 (initState "chromium" "dev" 0)) [])).metrics.failureRate = 0
      ∧ (finish 0 (runList (startCollector 0 (initState "chromium" "dev" 0)) [])).metrics.topFailures = [] :=
  (finish_spec "chromium" "dev" 0 0 0 []).2.1 rfl

/-! ## Claim C6: failed result without an error object -/

theorem updatePM_failures (r : TestResult) (s : CollectorState) :
    (updatePerformanceMetrics r s).failures = s.failures := rfl

theorem stepFailure_none (acc : List (String × FailurePattern)) (t : TestResult)
    (h : t.error = none) : stepFailure acc t = acc := by
  unfold stepFailure
  rw [h]

/-- C6: a failed result with no error object is counted in `failed` and
`total`, leaves the failure index untouched (hence `topFailures` after
`finish` is as if it were never recorded), and `analyzeFailures` silently
skips it wherever it appears in the failed-test list. -/
theorem failed_without_error_spec (t : TestResult) (h1 : t.status = .failed)
    (h2 : t.error = none) (s : CollectorState) (now now2 : ℚ) :
    (recordTest t now s).metrics.failed = s.metrics.failed + 1
      ∧ (recordTest t now s).metrics.total = s.metrics.total + 1
      ∧ (recordTest t now s).failures = s.failures
      ∧ (finish now2 (recordTest t now s)).metrics.topFailures
          = (finish now2 s).metrics.topFailures
      ∧ ∀ l1 l2 : List TestResult,
          analyzeFailures (l1 ++ t :: l2) = analyzeFailures (l1 ++ l2) := by
  have hfail : (recordTest t now s).failures = s.failures := by
    unfold recordTest updatePerformanceMetrics applyStatus
    rw [h1]
    simp [recordFailure_of_error_none _ _ _ h2]
  refine ⟨?_, recordTest_total t now s, hfail, ?_, ?_⟩
  · rw [recordTest_failed, h1]
    simp
  · rw [finish_topFailures, finish_topFailures, hfail]
  · intro l1 l2
    unfold analyzeFailures groupFailures
    rw [List.foldl_append, List.foldl_append, List.foldl_cons,
      stepFailure_none _ _ h2]

/-- C6 witness: recording the concrete error-less failed result on a fresh
collector bumps `failed` and the analyzer ignores the result. -/
theorem failed_without_error_spec_witness :
    (recordTest failedNoError 0 (initState "chromium" "dev" 0)).metrics.failed
        = (initState "chromium" "dev" 0).metrics.failed + 1
      ∧ analyzeFailures ([] ++ failedNoError :: []) = analyzeFailures ([] ++ []) :=
  ⟨(failed_without_error_spec failedNoError rfl rfl (initState "chromium" "dev" 0) 0 0).1,
   (failed_without_error_spec failedNoError rfl rfl (initState "chromium" "dev" 0) 0 0).2.2.2.2 [] []⟩

/-! ## Claim C3: Scenario A -/

/-- C3: recording 3 passed results (100ms, 200ms, 300ms) and 1 failed result
with `error.message = "Timeout 5000ms exceeded"`, `error.type = "TimeoutError"`
(any duration `d`), then finishing and analyzing the failed tests, yields
`total = 4`, `passed = 3`, `failed = 1`, the mean of all 4 durations,
`failureRate = 25`, and exactly one `FailurePattern` — category `timeout`,
pattern `"Timeout 5000ms"`, `occurrences = 1`, severity `medium`. -/
theorem scenarioA (d t0 t1 t2 : ℚ) :
    (scenarioARun d t0 t1 t2).metrics.total = 4
      ∧ (scenarioARun d t0 t1 t2).metrics.passed = 3
      ∧ (scenarioARun d t0 t1 t2).metrics.failed = 1
      ∧ (scenarioARun d t0 t1 t2).metrics.averageTestDuration = (100 + 200 + 300 + d) / 4
      ∧ (scenarioARun d t0 t1 t2).metrics.failureRate = 25
      ∧ analyzeFailures (getFailedTests (scenarioARun d t0 t1 t2))
          = [{ pattern := "Timeout 5000ms"
               description := "Test exceeded the maximum execution time"
               occurrences := 1
               affectedTests := ["t4"]
               severity := .medium
               category := .timeout
               suggestedFix := some "Increase timeout value or optimize test performance. Check for slow network or page loads." }] := by
  refine ⟨rfl, rfl, rfl, ?_, ?_, rfl⟩
  · show ((((0 + 100) + 200) + 300) + d) / ((4 : ℕ) : ℚ) = (100 + 200 + 300 + d) / 4
    norm_num
  · show ((1 : ℕ) : ℚ) / ((4 : ℕ) : ℚ) * 100 = 25
    norm_num

/-! ## Claim C9: header status class -/

/-- C9 counterexample: at `passed = 1999`, `total = 2500` the exact pass rate
is 79.96%, strictly below 80, yet `buildHeader` emits class `"success"`
because the comparison runs on the rate rounded to one decimal by
`toFixed(1)`, which rounds 79.96 up to 80.0. -/
theorem statusClass_rounding_counterexample :
    buildHeaderStatusClass roundedUpMetrics = "success"
      ∧ ¬(80 ≤ (roundedUpMetrics.passed : ℚ) / (roundedUpMetrics.total : ℚ) * 100) := by
  have hrate : (roundedUpMetrics.passed : ℚ) / (roundedUpMetrics.total : ℚ) * 100
      = 1999 / 25 := by
    norm_num [roundedUpMetrics, initState]
  constructor
  · have hfl : toFixed1 ((roundedUpMetrics.passed : ℚ) / (roundedUpMetrics.total : ℚ) * 100)
        = 80 := by
      rw [hrate]
      unfold toFixed1
      norm_num
    simp [buildHeaderStatusClass, hfl]
  · rw [hrate]
    norm_num

/-- C9 amended: the header's status class is decided by the pass rate rounded
to one decimal (the `toFixed(1)`/`parseFloat` round trip), not the exact
rate: `success` iff the rounded rate is at least 80, `warning` iff it is at
least 50 but below 80, `error` otherwise; when `total = 0` the class is
`error` (the source's `NaN` pass rate fails both comparisons). -/
theorem statusClass_of_rounded_rate (m : TestMetrics) :
    (m.total = 0 → buildHeaderStatusClass m = "error")
      ∧ (buildHeaderStatusClass m = "success"
          ↔ 80 ≤ toFixed1 ((m.passed : ℚ) / (m.total : ℚ) * 100))
      ∧ (buildHeaderStatusClass m = "warning"
          ↔ (50 ≤ toFixed1 ((m.passed : ℚ) / (m.total : ℚ) * 100)
              ∧ toFixed1 ((m.passed : ℚ) / (m.total : ℚ) * 100) < 80))
      ∧ (buildHeaderStatusClass m = "error"
          ↔ toFixed1 ((m.passed : ℚ) / (m.total : ℚ) * 100) < 50) := by
  have hcls : ∀ q : ℚ, 50 ≤ q → ¬(80 ≤ q) → q < 80 := fun q _ h => lt_of_not_le h
  by_cases h80 : 80 ≤ toFixed1 ((m.passed : ℚ) / (m.total : ℚ) * 100)
  · refine ⟨?_, ?_, ?_, ?_⟩
    · intro hm
      exfalso
      rw [hm] at h80
      norm_num [toFixed1] at h80
    · simp [buildHeaderStatusClass, h80]
    · simp only [buildHeaderStatusClass, if_pos h80]
      constructor
      · intro hcontr
        exact absurd hcontr (by decide)
      · rintro ⟨-, hlt⟩
        exact absurd h80 (not_le.mpr hlt)
    · simp only [buildHeaderStatusClass, if_pos h80]
      constructor
      · intro hcontr
        exact absurd hcontr (by decide)
      · intro hlt
        exact absurd h80 (not_le.mpr (lt_trans hlt (by norm_num)))
  · by_cases h50 : 50 ≤ toFixed1 ((m.passed : ℚ) / (m.total : ℚ) * 100)
    · refine ⟨?_, ?_, ?_, ?_⟩
      · intro hm
        exfalso
        rw [hm] at h50
        norm_num [toFixed1] at h50
      · simp only [buildHeaderStatusClass, if_neg h80, if_pos h50]
        constructor
        · intro hcontr
          exact absurd hcontr (by decide)
        · intro hle
          exact absurd hle h80
      · simp only [buildHeaderStatusClass, if_neg h80, if_pos h50]
        simp [h50, lt_of_not_le h80]
      · simp only [buildHeaderStatusClass, if_neg h80, if_pos h50]
        constructor
        · intro hcontr
          exact absurd hcontr (by decide)
        · intro hlt
          exact absurd h50 (not_le.mpr hlt)
    · refine ⟨?_, ?_, ?_, ?_⟩
      · intro _
        simp [buildHeaderStatusClass, h80, h50]
      · simp only [buildHeaderStatusClass, if_neg h80, if_neg h50]
        constructor
        · intro hcontr
          exact absurd hcontr (by decide)
        · intro hle
          exact absurd hle h80
      · simp only [buildHeaderStatusClass, if_neg h80, if_neg h50]
        constructor
        · intro hcontr
          exact absurd hcontr (by decide)
        · rintro ⟨hle, -⟩
          exact absurd hle h50
      · simp [buildHeaderStatusClass, h80, h50, lt_of_not_le h50]

/-- C9 witness: a fresh collector's zeroed metrics (`total = 0`) get header
class `error`. -/
theorem statusClass_of_rounded_rate_witness :
    buildHeaderStatusClass (initState "chromium" "dev" 0).metrics = "error" :=
  (statusClass_of_rounded_rate (initState "chromium" "dev" 0).metrics).1 rfl

/-! ## Lemmas: the `category:pattern` key determines the pair -/

theorem string_data_inj {s t : String} (h : s.data = t.data) : s = t := by
  cases s
  cases t
  exact congrArg String.mk h

theorem colon_split_unique :
    ∀ (a₁ b₁ a₂ b₂ : List Char), (∀ c ∈ a₁, c ≠ ':') → (∀ c ∈ a₂, c ≠ ':') →
      a₁ ++ ':' :: b₁ = a₂ ++ ':' :: b₂ → a₁ = a₂ ∧ b₁ = b₂ := by
  intro a₁
  induction a₁ with
  | nil =>
    intro b₁ a₂ b₂ _ h2 he
    cases a₂ with
    | nil => simpa using he
    | cons c t =>
      exfalso
      have hc : (':' : Char) = c := by simpa using congrArg (fun l => l.head?) he
      exact h2 c (by simp) hc.symm
  | cons c t ih =>
    intro b₁ a₂ b₂ h1 h2 he
    cases a₂ with
    | nil =>
      exfalso
      have hc : c = ':' := by simpa using congrArg (fun l => l.head?) he
      exact h1 c (by simp) hc
    | cons c₂ t₂ =>
      have hh : c = c₂ := by simpa using congrArg (fun l => l.head?) he
      have ht : t ++ ':' :: b₁ = t₂ ++ ':' :: b₂ := by
        have := congrArg (fun l => l.tail) he
        simpa using this
      obtain ⟨hA, hB⟩ := ih b₁ t₂ b₂ (fun x hx => h1 x (by simp [hx]))
        (fun x hx => h2 x (by simp [hx])) ht
      exact ⟨by rw [hh, hA], hB⟩

theorem catToString_colonFree (cat : FailureCategory) :
    ∀ c ∈ (catToString cat).data, c ≠ ':' := by
  cases cat <;> decide

theorem catToString_inj (c₁ c₂ : FailureCategory) (h : catToString c₁ = catToString c₂) :
    c₁ = c₂ := by
  cases c₁ <;> cases c₂ <;> first
    | rfl
    | exact absurd h (by decide)

theorem key_data (c : FailureCategory) (p : String) :
    (catToString c ++ ":" ++ p).data = (catToString c).data ++ ':' :: p.data := by
  rw [String.data_append, String.data_append]
  simp

theorem failKey_eq_iff (e : TestError) (c : FailureCategory) (p : String) :
    failKey e = catToString c ++ ":" ++ p
      ↔ (categorizeFailure e = c ∧ extractPattern e = p) := by
  constructor
  · intro h
    have hd := congrArg String.data h
    rw [show failKey e = catToString (categorizeFailure e) ++ ":" ++ extractPattern e from rfl,
      key_data, key_data] at hd
    obtain ⟨hc, hp⟩ := colon_split_unique _ _ _ _ (catToString_colonFree _)
      (catToString_colonFree _) hd
    exact ⟨catToString_inj _ _ (string_data_inj hc), string_data_inj hp⟩
  · rintro ⟨h1, h2⟩
    unfold failKey
    rw [h1, h2]

theorem matchesKey_eq_matchesPair (c : FailureCategory) (p : String) :
    matchesKey (catToString c ++ ":" ++ p) = matchesPair c p := by
  funext t
  unfold matchesKey matchesPair
  cases ht : t.error with
  | none => rfl
  | some e =>
    simp only [Option.any_some]
    rw [Bool.eq_iff_iff]
    simp only [Bool.and_eq_true, beq_iff_eq]
    exact failKey_eq_iff e c p

/-! ## Lemmas: the grouping invariant of `analyzeFailures` -/

theorem matchesKey_error_none {t : TestResult} (h : t.error = none) (k : String) :
    matchesKey k t = false := by
  simp [matchesKey, h]

theorem matchesKey_error_some {t : TestResult} {e : TestError} (h : t.error = some e)
    (k : String) : matchesKey k t = (failKey e == k) := by
  simp [matchesKey, h]

theorem update_map_fst (acc : List (String × FailurePattern)) (k : String) (nm : String) :
    (acc.map (fun kv => if kv.1 = k then (kv.1, bumpPattern kv.2 nm) else kv)).map Prod.fst
      = acc.map Prod.fst := by
  rw [List.map_map]
  apply List.map_congr_left
  intro kv _
  by_cases h : kv.1 = k <;> simp [h]

theorem any_key_eq (l : List (String × FailurePattern)) (K : String) :
    l.any (fun kv => kv.1 == K) = (l.map Prod.fst).any (fun k => k == K) := by
  induction l with
  | nil => rfl
  | cons x xs ih => simp [ih]

theorem groupInv_step {seen : List TestResult} {acc : List (String × FailurePattern)}
    (h : GroupInv seen acc) (t : TestResult) :
    GroupInv (seen ++ [t]) (stepFailure acc t) := by
  obtain ⟨hP, hN, hC⟩ := h
  cases he : t.error with
  | none =>
    rw [stepFailure_none acc t he]
    refine ⟨?_, hN, ?_⟩
    · intro kv hkv
      obtain ⟨h1, h2, h3⟩ := hP kv hkv
      have hft : List.filter (matchesKey kv.1) [t] = [] := by
        simp [List.filter, matchesKey_error_none he]
      rw [List.filter_append, hft, List.append_nil]
      exact ⟨h1, h2, h3⟩
    · intro t' ht' e he'
      rcases List.mem_append.mp ht' with h' | h'
      · exact hC t' h' e he'
      · have ht'' : t' = t := by simpa using h'
        rw [ht'', he] at he'
        cases he'
  | some e =>
    rw [show stepFailure acc t
        = (if acc.any (fun kv => kv.1 == failKey e) then
            acc.map (fun kv =>
              if kv.1 = failKey e then (kv.1, bumpPattern kv.2 t.fullName) else kv)
          else acc ++ [(failKey e, mkPattern e t.fullName)]) from by
      unfold stepFailure
      rw [he]]
    by_cases hhas : acc.any (fun kv => kv.1 == failKey e) = true
    · rw [if_pos hhas]
      refine ⟨?_, ?_, ?_⟩
      · intro kv' hkv'
        obtain ⟨kv, hkv, hkveq⟩ := List.mem_map.mp hkv'
        obtain ⟨h1, h2, h3⟩ := hP kv hkv
        by_cases hk : kv.1 = failKey e
        · rw [if_pos hk] at hkveq
          subst hkveq
          have hft : List.filter (matchesKey kv.1) [t] = [t] := by
            simp [List.filter, matchesKey_error_some he, hk]
          refine ⟨?_, ?_, ?_⟩
          · rw [List.filter_append, hft, List.length_append, ← h1]
            rfl
          · rw [List.filter_append, hft, List.map_append, ← h2]
            rfl
          · exact h3
        · rw [if_neg hk] at hkveq
          subst hkveq
          have hft : List.filter (matchesKey kv.1) [t] = [] := by
            simp only [List.filter, matchesKey_error_some he]
            have : (failKey e == kv.1) = false := by
              simp only [beq_eq_false_iff_ne, ne_eq]
              exact fun hc => hk hc.symm
            rw [this]
          rw [List.filter_append, hft, List.append_nil]
          exact ⟨h1, h2, h3⟩
      · rw [update_map_fst]
        exact hN
      · intro t' ht' e' he'
        rw [any_key_eq, update_map_fst, ← any_key_eq]
        rcases List.mem_append.mp ht' with h' | h'
        · exact hC t' h' e' he'
        · have ht'' : t' = t := by simpa using h'
          rw [ht'', he] at he'
          cases he'
          exact hhas
    · rw [if_neg hhas]
      have hnotin : ∀ kv ∈ acc, kv.1 ≠ failKey e := by
        intro kv hkv hk
        exact hhas (List.any_eq_true.mpr ⟨kv, hkv, by simp [hk]⟩)
      have hseen : List.filter (matchesKey (failKey e)) seen = [] := by
        rw [List.filter_eq_nil_iff]
        intro a ha hmatch
        cases hae : a.error with
        | none => rw [matchesKey_error_none hae] at hmatch; cases hmatch
        | some e' =>
          rw [matchesKey_error_some hae] at hmatch
          have hke : failKey e' = failKey e := by simpa using hmatch
          obtain ⟨kv, hkv, hkv1⟩ := List.any_eq_true.mp (hC a ha e' hae)
          have : kv.1 = failKey e' := by simpa using hkv1
          exact hnotin kv hkv (this.trans hke)
      refine ⟨?_, ?_, ?_⟩
      · intro kv' hkv'
        rcases List.mem_append.mp hkv' with h' | h'
        · obtain ⟨h1, h2, h3⟩ := hP kv' h'
          have hft : List.filter (matchesKey kv'.1) [t] = [] := by
            simp only [List.filter, matchesKey_error_some he]
            have : (failKey e == kv'.1) = false := by
              simp only [beq_eq_false_iff_ne, ne_eq]
              exact fun hc => hnotin kv' h' hc.symm
            rw [this]
          rw [List.filter_append, hft, List.append_nil]
          exact ⟨h1, h2, h3⟩
        · have hkv'' : kv' = (failKey e, mkPattern e t.fullName) := by simpa using h'
          subst hkv''
          have hft : List.filter (matchesKey (failKey e)) [t] = [t] := by
            simp [List.filter, matchesKey_error_some he]
          refine ⟨?_, ?_, rfl⟩
          · rw [List.filter_append, hseen, hft]
            rfl
          · rw [List.filter_append, hseen, hft]
            rfl
      · rw [List.map_append]
        simp only [List.map_cons, List.map_nil]
        rw [List.nodup_append]
        refine ⟨hN, List.nodup_singleton _, ?_⟩
        intro k hk hk'
        have hk'' : k = failKey e := by simpa using hk'
        obtain ⟨kv, hkv, hkveq⟩ := List.mem_map.mp hk
        exact hnotin kv hkv (hkveq.trans hk'')
      · intro t' ht' e' he'
        rw [List.any_append]
        rcases List.mem_append.mp ht' with h' | h'
        · rw [hC t' h' e' he']
          rfl
        · have ht'' : t' = t := by simpa using h'
          rw [ht'', he] at he'
          cases he'
          simp

theorem groupInv_holds (ts : List TestResult) : GroupInv ts (groupFailures ts) := by
  have main : ∀ (rest seen : List TestResult) (acc : List (String × FailurePattern)),
      GroupInv seen acc → GroupInv (seen ++ rest) (rest.foldl stepFailure acc) := by
    intro rest
    induction rest with
    | nil =>
      intro seen acc h
      simpa using h
    | cons t rest ih =>
      intro seen acc h
      have h2 := ih (seen ++ [t]) _ (groupInv_step h t)
      simpa using h2
  have h0 : GroupInv [] [] := ⟨by simp, by simp, by simp⟩
  simpa using main ts [] [] h0

/-! ## Claim C4: grouping and ordering of `analyzeFailures` -/

/-- C4: `analyzeFailures` groups the failed tests by the `(category, pattern)`
pair — each returned `FailurePattern`'s `occurrences` is the number of input
tests matching its pair and `affectedTests` lists their `fullName`s in input
order; every test with an error is represented; no pair appears twice — and
the output is sorted descending by `occurrences`, with ties between equal
occurrence counts keeping the grouping map's first-seen insertion order
(for every count, filtering the output at that count reproduces the
insertion-ordered group list filtered at that count). -/
theorem analyzeFailures_spec (ts : List TestResult) :
    (∀ fp ∈ analyzeFailures ts,
        fp.occurrences = (ts.filter (matchesPair fp.category fp.pattern)).length
          ∧ fp.affectedTests
              = (ts.filter (matchesPair fp.category fp.pattern)).map (fun t => t.fullName))
      ∧ (∀ t ∈ ts, ∀ e, t.error = some e →
          ∃ fp ∈ analyzeFailures ts,
            fp.category = categorizeFailure e ∧ fp.pattern = extractPattern e)
      ∧ ((analyzeFailures ts).map (fun fp => (fp.category, fp.pattern))).Nodup
      ∧ (analyzeFailures ts).Pairwise (fun a b => b.occurrences ≤ a.occurrences)
      ∧ (∀ n, (analyzeFailures ts).filter (fun fp => fp.occurrences == n)
          = ((groupFailures ts).map Prod.snd).filter (fun fp => fp.occurrences == n)) := by
  obtain ⟨hP, hN, hC⟩ := groupInv_holds ts
  have hperm := sortDescBy_perm (fun fp => fp.occurrences) ((groupFailures ts).map Prod.snd)
  refine ⟨?_, ?_, ?_, sortDescBy_pairwise _ _, fun n => sortDescBy_filter _ _ n⟩
  · intro fp hfp
    have hfp' : fp ∈ (groupFailures ts).map Prod.snd := hperm.mem_iff.mp hfp
    obtain ⟨kv, hkv, hkveq⟩ := List.mem_map.mp hfp'
    obtain ⟨h1, h2, h3⟩ := hP kv hkv
    subst hkveq
    rw [h3, matchesKey_eq_matchesPair] at h1 h2
    exact ⟨h1, h2⟩
  · intro t ht e he
    obtain ⟨kv, hkv, hk1⟩ := List.any_eq_true.mp (hC t ht e he)
    have hk1' : kv.1 = failKey e := by simpa using hk1
    obtain ⟨h1, h2, h3⟩ := hP kv hkv
    have hkey : failKey e = catToString kv.2.category ++ ":" ++ kv.2.pattern := by
      rw [← hk1']
      exact h3
    obtain ⟨hc, hp⟩ := (failKey_eq_iff e _ _).mp hkey
    exact ⟨kv.2, hperm.mem_iff.mpr (List.mem_map.mpr ⟨kv, hkv, rfl⟩), hc.symm, hp.symm⟩
  · have hmap : (groupFailures ts).map Prod.fst
        = ((groupFailures ts).map Prod.snd).map
            (fun fp => catToString fp.category ++ ":" ++ fp.pattern) := by
      rw [List.map_map]
      apply List.map_congr_left
      intro kv hkv
      exact (hP kv hkv).2.2
    have hkeys := hN
    rw [hmap] at hkeys
    have hsnd : (((groupFailures ts).map Prod.snd).map
        (fun fp => (fp.category, fp.pattern))).Nodup := by
      apply List.Nodup.of_map (fun cp : FailureCategory × String =>
        catToString cp.1 ++ ":" ++ cp.2)
      rw [List.map_map]
      exact hkeys
    exact ((hperm.map (fun fp => (fp.category, fp.pattern))).nodup_iff).mpr hsnd

/-- C4 witness: one failed test with a timeout error yields a pattern for the
pair (`timeout`, `"Timeout 5000ms"`). -/
theorem analyzeFailures_spec_witness :
    ∃ fp ∈ analyzeFailures [timeoutResult 0],
      fp.category = FailureCategory.timeout ∧ fp.pattern = "Timeout 5000ms" :=
  (analyzeFailures_spec [timeoutResult 0]).2.1 (timeoutResult 0) (by simp)
    { message := "Timeout 5000ms exceeded", stack := none, type := "TimeoutError",
      location := none } rfl

end Weem
